import Mathlib

/-!
Verification of the bazaar object-relational mapping core
(`src/bazaar/conf.py` and `src/bazaar/motor.py`) through a shallow
embedding in Lean.  Python dictionaries are modelled as association
lists with Python insertion semantics (`dictSet`), Python objects by
explicit records, and exceptions by `Except` / explicit error values.
-/

namespace Bazaar

/-! ## Python dictionary model

A Python `dict` is modelled as a `List (κ × α)` whose keys are unique.
`dictSet d k v` is `d[k] = v`: it overwrites the value in place when the
key is present and appends the binding otherwise.  `dictUpdate d e` is
`d.update(e)`.  `dictGet` is `d.get(k)` and `dictHasKey` is `k in d`.
-/

def dictSet {κ α : Type} [DecidableEq κ] : List (κ × α) → κ → α → List (κ × α)
  | [], k, v => [(k, v)]
  | p :: d, k, v => if p.1 = k then (k, v) :: d else p :: dictSet d k v

def dictGet {κ α : Type} [DecidableEq κ] (d : List (κ × α)) (k : κ) : Option α :=
  (d.find? (fun p => decide (p.1 = k))).map Prod.snd

def dictHasKey {κ α : Type} [DecidableEq κ] (d : List (κ × α)) (k : κ) : Bool :=
  d.any (fun p => decide (p.1 = k))

def dictKeys {κ α : Type} (d : List (κ × α)) : List κ :=
  d.map Prod.fst

def dictUpdate {κ α : Type} [DecidableEq κ] (d e : List (κ × α)) : List (κ × α) :=
  e.foldl (fun acc p => dictSet acc p.1 p.2) d

/-! ## Value model

Python run-time values reaching the mapper: `None`, numbers, strings and
persistent objects.  A persistent object appearing as an attribute value
is represented by its `__key__` attribute, itself a value (initially
`None`). -/

inductive Val : Type where
  | vnone : Val
  | vint : Int → Val
  | vstr : String → Val
  | vobj : Val → Val
deriving DecidableEq, Repr

/-- Cache policy tags (`bazaar.cache.FullObject` / `FullAssociation`). -/
inductive CacheTag : Type where
  | fullObject : CacheTag
  | fullAssociation : CacheTag
deriving DecidableEq, Repr

/-- The part of an association object (`bazaar.assoc`, constructed by the
excluded runtime and stored into `Column.association`) that
`motor.Convertor.__init__` reads: `asc.col.vcls`, the `vcls` field of the
descriptor the association object was built from. -/
structure Assoc : Type where
  colVcls : Option String
deriving DecidableEq, Repr

/-- Source class `bazaar.conf.Column`: the descriptor of one mapped attribute.  `vcls` is
the referenced class, modelled by its name.  `association` is `None`
until the excluded association runtime installs an association object.
`cache` models the dynamically assigned `cache` attribute (absent is
`none`). -/
structure Column : Type where
  attr : String
  col : String
  vcls : Option String
  link : Option String
  vcol : Option String
  vattr : Option String
  association : Option Assoc
  update : Bool
  cache : Option CacheTag
deriving DecidableEq, Repr

/-- Source `Column.__init__(attr, col = None)`: `col` defaults to `attr`; all
association fields start unset and `update` starts `True`. -/
def Column.init (attr : String) (col : Option String) : Column :=
  { attr := attr
    col := col.getD attr
    vcls := none
    link := none
    vcol := none
    vattr := none
    association := none
    update := true
    cache := none }

/-- Predicate `Column.is_one_to_one`: `vcls` set, `link` unset, `vcol` unset. -/
def Column.is_one_to_one (c : Column) : Bool :=
  c.vcls.isSome && c.link.isNone && c.vcol.isNone

/-- Predicate `Column.is_one_to_many`: `vcls` set, `link` unset, `vcol` and `vattr`
set. -/
def Column.is_one_to_many (c : Column) : Bool :=
  c.vcls.isSome && c.link.isNone && c.vcol.isSome && c.vattr.isSome

/-- Predicate `Column.is_many_to_many`: `vcls`, `link` and `vcol` set.  The
additional source conjunct `self.col is not None` always holds here
because `Column.__init__` assigns a string to `col`. -/
def Column.is_many_to_many (c : Column) : Bool :=
  c.vcls.isSome && c.link.isSome && c.vcol.isSome

/-- Predicate `Column.is_bidir`: `vcls` and `vattr` set. -/
def Column.is_bidir (c : Column) : Bool :=
  c.vcls.isSome && c.vattr.isSome

/-- Predicate `Column.is_many`: one-to-many or many-to-many. -/
def Column.is_many (c : Column) : Bool :=
  c.is_one_to_many || c.is_many_to_many

/-! ## `Persistence.addColumn`

The mutable per-class state touched by `addColumn`: the own
`columns` dictionary of the class, its `defaults` dictionary, and the class attribute
named `update` that the statement `self.update = update` assigns
(`none` while the attribute has never been assigned). -/

structure PState : Type where
  columns : List (String × Column)
  defaults : List (String × Val)
  updateAttr : Option Bool
deriving Repr

/-- Python exceptions that the embedded code can raise. -/
inductive PyErr : Type where
  | nameError : PyErr
  | columnMappingError : PyErr
  | attributeError : PyErr
  | assertionError : PyErr
  | typeError : PyErr
  | indexError : PyErr
  | keyError : PyErr
  | executionError : PyErr
deriving DecidableEq, Repr

/-- The descriptor built by the first five statements of `addColumn`:
`col = Column(attr, col)` followed by the assignments of `vcls`, `link`,
`vcol` and `vattr`. -/
def addColumnDescr (attr : String) (colArg vcls link vcol vattr : Option String) :
    Column :=
  { Column.init attr colArg with
      vcls := vcls
      link := link
      vcol := vcol
      vattr := vattr }

/-- The class-state mutations `addColumn` performs before its validity
checks run: `self.update = update` assigns the class attribute,
`self.defaults[attr] = None` is installed, and for a one-to-one
descriptor with `attr != col` so is `self.defaults[col.col] = None`. -/
def addColumnPre (st : PState) (attr : String) (colArg vcls link vcol vattr : Option String)
    (update : Bool) : PState :=
  let col := addColumnDescr attr colArg vcls link vcol vattr
  let st1 : PState := { st with updateAttr := some update }
  let st2 : PState := { st1 with defaults := dictSet st1.defaults attr Val.vnone }
  if col.is_one_to_one = true ∧ col.attr ≠ col.col then
    { st2 with defaults := dictSet st2.defaults col.col Val.vnone }
  else st2

/-- Source `Persistence.addColumn(attr, col, vcls, link, vcol, vattr, update)`,
returning the class state after the call together with the exception it
raised, if any.  The statement order follows the source: the descriptor
is built, `self.update = update` assigns a class attribute (the
own `update` field of the descriptor is never written), the `defaults`
entries are installed, the cache tag is bound on the descriptor, and
only then the two validity checks run before the descriptor is
registered.  The empty-name branch raises the bare name
`ColumnMappingError`, which is undefined in the module namespace,
hence a `NameError`. -/
def addColumn (st : PState) (attr : String) (colArg vcls link vcol vattr : Option String)
    (update : Bool) : PState × Option PyErr :=
  let col0 := addColumnDescr attr colArg vcls link vcol vattr
  let col :=
    if col0.is_many then { col0 with cache := some CacheTag.fullAssociation } else col0
  let st3 := addColumnPre st attr colArg vcls link vcol vattr update
  if attr = "" then
    (st3, some PyErr.nameError)
  else if dictHasKey st3.columns attr then
    (st3, some PyErr.columnMappingError)
  else
    ({ st3 with columns := dictSet st3.columns col.attr col }, none)

/-! ## `Persistence.getColumns`

A configured class is its list of configured base classes (bases that
are not `Persistence` instances contribute nothing and are omitted)
together with its own `columns` dictionary. -/

inductive PClass : Type where
  | mk : List PClass → List (String × Column) → PClass

def PClass.bases : PClass → List PClass
  | .mk b _ => b

def PClass.columns : PClass → List (String × Column)
  | .mk _ c => c

mutual

/-- Source `Persistence.getColumns`: start from an empty dictionary, update it
with the `getColumns()` of each configured base in base order, then
update with the own `columns` of the class. -/
def PClass.getColumns : PClass → List (String × Column)
  | .mk bases cols => dictUpdate (getColumnsOfBases [] bases) cols

/-- The `for cls in self.__bases__: cols.update(cls.getColumns())` loop. -/
def getColumnsOfBases (acc : List (String × Column)) :
    List PClass → List (String × Column)
  | [] => acc
  | b :: bs => getColumnsOfBases (dictUpdate acc b.getColumns) bs

end

mutual

/-- An attribute name is declared somewhere in the class hierarchy. -/
def PClass.declares : PClass → String → Bool
  | .mk bases cols, a => dictHasKey cols a || basesDeclare bases a

def basesDeclare : List PClass → String → Bool
  | [], _ => false
  | b :: bs, a => b.declares a || basesDeclare bs a

end

mutual

/-- A (name, descriptor) binding is declared by some class of the
hierarchy. -/
def PClass.hasDecl : PClass → String → Column → Bool
  | .mk bases cols, a, v =>
      cols.any (fun p => decide (p.1 = a) && decide (p.2 = v)) || basesHaveDecl bases a v

def basesHaveDecl : List PClass → String → Column → Bool
  | [], _, _ => false
  | b :: bs, a, v => b.hasDecl a v || basesHaveDecl bs a v

end

/-! ## `motor.Convertor`: SQL statement synthesis

The convertor sees a configured class through its relation name, its
sequencer name and the values of its `columns` dictionary
(`self.cls.columns.values()`), kept here in declaration order. -/

structure ConvClass : Type where
  relation : String
  sequencer : String
  columns : List Column
deriving Repr

/-- Python percent-s rendering of an optional string (the Python value
`None` prints as the text `None`). -/
def pyStr (o : Option String) : String :=
  o.getD "None"

/-- Renders a double-quoted identifier, as the source does per column. -/
def quoteId (c : String) : String :=
  "\"" ++ c ++ "\""

/-- Comma join, as the source builds with the join of a comma-space
separator. -/
def commaJoin (l : List String) : String :=
  String.intercalate ", " l

/-- The `getObjects` statement: `select "__key__", <cols> from "<rel>"`. -/
def selectText (relation : String) (cols : List String) : String :=
  "select \"__key__\", " ++ commaJoin (cols.map quoteId) ++ " from " ++ quoteId relation

/-- The `add` statement: named placeholders, one per column, after the
`%%`-escape of the format pass. -/
def insertText (relation : String) (cols : List String) : String :=
  "insert into " ++ quoteId relation ++ " (__key__, " ++ commaJoin (cols.map quoteId)
    ++ ") values (%(__key__)s, "
    ++ commaJoin (cols.map (fun c => "%(" ++ c ++ ")s")) ++ ")"

/-- The `update` statement: positional placeholders, keyed by primary
key last. -/
def updateText (relation : String) (cols : List String) : String :=
  "update " ++ quoteId relation ++ " set "
    ++ commaJoin (cols.map (fun c => quoteId c ++ " = %s")) ++ " where __key__ = %s"

/-- The `delete` statement. -/
def deleteText (relation : String) : String :=
  "delete from " ++ quoteId relation ++ " where __key__ = %s"

/-- The primary-key allocation statement built from the sequencer name. -/
def getKeyText (sequencer : String) : String :=
  "select nextval(\x27" ++ sequencer ++ "\x27)"

/-- The three link-relation statements prepared for one many-to-many
descriptor, built over `asc_cols = (col.col, col.vcol)`. -/
structure PairQueries : Type where
  addPair : String
  delPair : String
  getPair : String
deriving DecidableEq, Repr

def pairQueriesOf (c : Column) : PairQueries :=
  { addPair := "insert into " ++ quoteId (pyStr c.link) ++ " ("
        ++ commaJoin [quoteId c.col, quoteId (pyStr c.vcol)] ++ ") values(%s, %s)"
    delPair := "delete from " ++ quoteId (pyStr c.link) ++ " where "
        ++ String.intercalate " and "
             [quoteId c.col ++ " = %s", quoteId (pyStr c.vcol) ++ " = %s"]
    getPair := "select " ++ commaJoin [quoteId c.col, quoteId (pyStr c.vcol)]
        ++ " from " ++ quoteId (pyStr c.link) }

/-- The state a `Convertor` instance carries after `__init__`. -/
structure ConvState : Type where
  columns : List String
  oto_ascs : List Column
  mtm_ascs : List Column
  qGetObjects : String
  qAdd : String
  qUpdate : String
  qDelete : String
  qGetKey : String
  pairQueries : List PairQueries
deriving Repr

/-- The state `Convertor.__init__` computes: the column list is the
`col.col` of every column whose `association is None`, then the
`col.col` of every one-to-one column appended; every statement is built
from that list. -/
def convStateOf (cls : ConvClass) : ConvState :=
  let cls_columns := cls.columns
  let plain := (cls_columns.filter (fun c => c.association.isNone)).map Column.col
  let oto := cls_columns.filter Column.is_one_to_one
  let columns := plain ++ oto.map Column.col
  let mtm := cls_columns.filter Column.is_many_to_many
  { columns := columns
    oto_ascs := oto
    mtm_ascs := mtm
    qGetObjects := selectText cls.relation columns
    qAdd := insertText cls.relation columns
    qUpdate := updateText cls.relation columns
    qDelete := deleteText cls.relation
    qGetKey := getKeyText cls.sequencer
    pairQueries := mtm.map pairQueriesOf }

/-- The `for col in self.mtm_ascs` loop of `Convertor.__init__`:
`assert col.association.col.vcls == col.vcls` per column.  Reading
`.col` on a `None` association raises `AttributeError`; a failed assert
raises `AssertionError`. -/
def mtmCheck : List Column → Option PyErr
  | [] => none
  | c :: rest =>
      match c.association with
      | none => some PyErr.attributeError
      | some a => if a.colVcls = c.vcls then mtmCheck rest else some PyErr.assertionError

/-- Source `Convertor.__init__`: build the statements, then run the
many-to-many loop, whose assertion is the only check that can make
construction fail. -/
def Convertor.init (cls : ConvClass) : Except PyErr ConvState :=
  match mtmCheck (cls.columns.filter Column.is_many_to_many) with
  | some e => Except.error e
  | none => Except.ok (convStateOf cls)

/-- The per-column condition the `Convertor.__init__` assertion
enforces: the column carries an association object whose descriptor
`vcls` field equals the own `vcls` of the column. -/
def assocOkB (c : Column) : Bool :=
  match c.association with
  | none => false
  | some a => decide (a.colVcls = c.vcls)

/-! ## `motor.Convertor`: instance operations -/

/-- A persistent application object: its `__key__` attribute and its
`__dict__`. -/
structure PObj : Type where
  key : Val
  attrs : List (String × Val)
deriving DecidableEq, Repr

/-- Evaluates `value.__key__` for the one-to-one loop of `Convertor.getData`:
`None` stays `None`, a persistent object yields its key, and any other
value has no `__key__` attribute. -/
def keyOfRef : Val → Except PyErr Val
  | Val.vnone => Except.ok Val.vnone
  | Val.vobj k => Except.ok k
  | _ => Except.error PyErr.attributeError

/-- The `for col in self.oto_ascs` loop of `Convertor.getData`,
threading the `data` dictionary. -/
def extractLoop (obj : PObj) : List Column → List (String × Val) →
    Except PyErr (List (String × Val))
  | [], d => Except.ok d
  | c :: rest, d =>
      match dictGet obj.attrs c.attr with
      | none => Except.error PyErr.attributeError
      | some v =>
          match keyOfRef v with
          | Except.error e => Except.error e
          | Except.ok k => extractLoop obj rest (dictSet d c.col k)

/-- Source `Convertor.getData(obj)`: copy `obj.__dict__`, then overwrite, for
each one-to-one column, the entry at the column name with the referenced
key of the referenced object (or `None`). -/
def Convertor.getData (st : ConvState) (obj : PObj) :
    Except PyErr (List (String × Val)) :=
  extractLoop obj st.oto_ascs obj.attrs

/-- The comprehension `[data[col] for col in self.columns]`; a missing key raises
`KeyError`. -/
def pickCols (data : List (String × Val)) : List String → Except PyErr (List Val)
  | [] => Except.ok []
  | c :: rest =>
      match dictGet data c with
      | none => Except.error PyErr.keyError
      | some v => (pickCols data rest).map (fun vs => v :: vs)

/-! ## `motor.Motor`: database access

The external driver connection is an oracle: `rows q` is the result set
the cursor yields for statement `q`, and `failExec q` tells whether
executing `q` raises in the driver (constraint violation, lost
connection, ...). -/

structure DBConn : Type where
  rows : String → List (List Val)
  failExec : String → Bool

/-- Source `Motor.__init__` leaves `db_conn = None`; `connectDB` installs a
connection. -/
structure Motor : Type where
  db_conn : Option DBConn

def Motor.initState : Motor :=
  { db_conn := none }

def Motor.connectDB (_ : Motor) (conn : DBConn) : Motor :=
  { db_conn := some conn }

/-- Source `Motor.getData(query, cols)`: every query operation starts with
`self.db_conn.cursor()`, which on a `None` connection raises
`AttributeError`.  (In the source this is a generator; the failure
surfaces on the first row request.) -/
def Motor.getData (m : Motor) (query : String) : Except PyErr (List (List Val)) :=
  match m.db_conn with
  | none => Except.error PyErr.attributeError
  | some c =>
      if c.failExec query then Except.error PyErr.executionError
      else Except.ok (c.rows query)

/-- Source `Motor.add(query, data)`. -/
def Motor.add (m : Motor) (query : String) (_ : List (String × Val)) :
    Except PyErr Unit :=
  match m.db_conn with
  | none => Except.error PyErr.attributeError
  | some c =>
      if c.failExec query then Except.error PyErr.executionError else Except.ok ()

/-- Source `Motor.update(query, data, key)`: executes with `tuple(data) + (key,)`. -/
def Motor.update (m : Motor) (query : String) (_ : List Val) (_ : Val) :
    Except PyErr Unit :=
  match m.db_conn with
  | none => Except.error PyErr.attributeError
  | some c =>
      if c.failExec query then Except.error PyErr.executionError else Except.ok ()

/-- Source `Motor.delete(query, key)`. -/
def Motor.delete (m : Motor) (query : String) (_ : Val) : Except PyErr Unit :=
  match m.db_conn with
  | none => Except.error PyErr.attributeError
  | some c =>
      if c.failExec query then Except.error PyErr.executionError else Except.ok ()

/-- Source `Motor.executeMany(query, iterator)`. -/
def Motor.executeMany (m : Motor) (query : String) (_ : List (List Val)) :
    Except PyErr Unit :=
  match m.db_conn with
  | none => Except.error PyErr.attributeError
  | some c =>
      if c.failExec query then Except.error PyErr.executionError else Except.ok ()

/-- Source `Motor.getKey(query)`: run the sequencer query and return
`fetchone()[0]`.  `fetchone()` on an empty result returns `None`, and
`None[0]` raises `TypeError`; an empty row raises `IndexError`. -/
def Motor.getKey (m : Motor) (query : String) : Except PyErr Val :=
  match m.db_conn with
  | none => Except.error PyErr.attributeError
  | some c =>
      if c.failExec query then Except.error PyErr.executionError
      else
        match (c.rows query).head? with
        | none => Except.error PyErr.typeError
        | some r =>
            match r.head? with
            | none => Except.error PyErr.indexError
            | some v => Except.ok v

/-- Calls the convertor makes to its motor. -/
inductive Event : Type where
  | evGetKey : String → Event
  | evInsert : String → List (String × Val) → Event
  | evUpdate : String → List Val → Val → Event
  | evDelete : String → Val → Event
deriving DecidableEq, Repr

/-- Source `Convertor.add(obj)`: extract the row, allocate the key, store it in
the row, insert, and only then assign the key to `obj.__key__`.  The
result is the raised exception (if any), the final state of `obj`, and
the sequence of motor calls that were issued. -/
def Convertor.add (st : ConvState) (m : Motor) (obj : PObj) :
    Except PyErr Unit × PObj × List Event :=
  match Convertor.getData st obj with
  | Except.error e => (Except.error e, obj, [])
  | Except.ok data =>
      match Motor.getKey m st.qGetKey with
      | Except.error e => (Except.error e, obj, [Event.evGetKey st.qGetKey])
      | Except.ok key =>
          let data2 := dictSet data "__key__" key
          match Motor.add m st.qAdd data2 with
          | Except.error e =>
              (Except.error e, obj, [Event.evGetKey st.qGetKey, Event.evInsert st.qAdd data2])
          | Except.ok _ =>
              (Except.ok (), { obj with key := key },
                [Event.evGetKey st.qGetKey, Event.evInsert st.qAdd data2])

/-- Source `Convertor.update(obj)`: extract the row and issue the positional
update keyed by `obj.__key__`, whatever that key is. -/
def Convertor.update (st : ConvState) (m : Motor) (obj : PObj) :
    Except PyErr Unit × List Event :=
  match Convertor.getData st obj with
  | Except.error e => (Except.error e, [])
  | Except.ok data =>
      match pickCols data st.columns with
      | Except.error e => (Except.error e, [])
      | Except.ok params =>
          match Motor.update m st.qUpdate params obj.key with
          | Except.error e =>
              (Except.error e, [Event.evUpdate st.qUpdate params obj.key])
          | Except.ok _ =>
              (Except.ok (), [Event.evUpdate st.qUpdate params obj.key])

/-- Source `Convertor.delete(obj)`. -/
def Convertor.delete (st : ConvState) (m : Motor) (obj : PObj) :
    Except PyErr Unit × List Event :=
  match Motor.delete m st.qDelete obj.key with
  | Except.error e => (Except.error e, [Event.evDelete st.qDelete obj.key])
  | Except.ok _ => (Except.ok (), [Event.evDelete st.qDelete obj.key])

/-- Collapses `Except` success to a boolean. -/
def exOk {ε α : Type} : Except ε α → Bool
  | Except.ok _ => true
  | Except.error _ => false

/-! ## Concrete configurations used to exercise the development

These mirror the classes of the module documentation: `Order` with
plain columns `no` and `finished`, a one-to-one `boss` column, a
one-to-many `items` column and a many-to-many `orders`/`employees`
association. -/

def colNo : Column :=
  { attr := "no", col := "no", vcls := none, link := none, vcol := none,
    vattr := none, association := none, update := true, cache := none }

def colFinished : Column :=
  { attr := "finished", col := "finished", vcls := none, link := none, vcol := none,
    vattr := none, association := none, update := true, cache := none }

def colBoss : Column :=
  { attr := "boss", col := "boss_fkey", vcls := some "Boss", link := none, vcol := none,
    vattr := none, association := some { colVcls := some "Boss" }, update := true,
    cache := none }

def colItems : Column :=
  { attr := "items", col := "items", vcls := some "OrderItem", link := none,
    vcol := some "order_fkey", vattr := some "order",
    association := some { colVcls := some "OrderItem" }, update := true,
    cache := some CacheTag.fullAssociation }

def colOrders : Column :=
  { attr := "orders", col := "employee", vcls := some "Order",
    link := some "employee_orders", vcol := some "order", vattr := some "employees",
    association := some { colVcls := some "Order" }, update := true,
    cache := some CacheTag.fullAssociation }

/-- The mirrored side of `colOrders`, declared on the partner class with
a different link relation name, which step 8 of the spec says must be
rejected. -/
def colEmployeesBadLink : Column :=
  { attr := "employees", col := "order", vcls := some "Employee",
    link := some "orders_employees", vcol := some "employee", vattr := some "orders",
    association := some { colVcls := some "Employee" }, update := true,
    cache := some CacheTag.fullAssociation }

def clsOrderFull : ConvClass :=
  { relation := "order", sequencer := "order_seq",
    columns := [colNo, colFinished, colBoss, colItems, colOrders] }

def clsEmployee : ConvClass :=
  { relation := "employee", sequencer := "employee_seq", columns := [colOrders] }

def clsOrderBadLink : ConvClass :=
  { relation := "order", sequencer := "order_seq", columns := [colEmployeesBadLink] }

/-- A plain column whose relation column name differs from the
attribute name. -/
def colAB : Column :=
  { attr := "a", col := "b", vcls := none, link := none, vcol := none,
    vattr := none, association := none, update := true, cache := none }

def clsAB : ConvClass :=
  { relation := "r", sequencer := "r_seq", columns := [colAB] }

def objAB : PObj :=
  { key := Val.vnone, attrs := [("a", Val.vint 5)] }

def clsOrderPlain : ConvClass :=
  { relation := "order", sequencer := "order_seq", columns := [colNo] }

def objNoKey : PObj :=
  { key := Val.vnone, attrs := [("no", Val.vint 1)] }

/-- A connected driver that answers every statement without failing. -/
def connQuiet : DBConn :=
  { rows := fun _ => [], failExec := fun _ => false }

/-- A connected driver on which every statement execution fails, so key
allocation fails. -/
def connAllFail : DBConn :=
  { rows := fun _ => [], failExec := fun _ => true }

/-- A connected driver that allocates key 7 but fails any other
statement, so the insert after a successful allocation fails. -/
def connInsFail : DBConn :=
  { rows := fun _ => [[Val.vint 7]],
    failExec := fun q => !(q == getKeyText "order_seq") }

/-- A connected driver that allocates key 7 and executes everything. -/
def connKey7 : DBConn :=
  { rows := fun _ => [[Val.vint 7]], failExec := fun _ => false }

def mQuiet : Motor := { db_conn := some connQuiet }

def mAllFail : Motor := { db_conn := some connAllFail }

def mInsFail : Motor := { db_conn := some connInsFail }

def mKey7 : Motor := { db_conn := some connKey7 }

/-- An `Order` instance whose `boss` reference points at a persistent
object with key 3. -/
def objOrder : PObj :=
  { key := Val.vnone,
    attrs := [("no", Val.vint 5), ("finished", Val.vint 0),
      ("boss", Val.vobj (Val.vint 3))] }

/-- The diamond hierarchy for `getColumns`: `pD` inherits `pA` through
both `pB` and `pC`, and overrides attribute `"a"`. -/
def colA2 : Column :=
  { attr := "a", col := "a2", vcls := none, link := none, vcol := none,
    vattr := none, association := none, update := true, cache := none }

def pA : PClass := PClass.mk [] [("a", colNo)]

def pB : PClass := PClass.mk [pA] [("b", colFinished)]

def pC : PClass := PClass.mk [pA] [("c", colAB)]

def pD : PClass := PClass.mk [pB, pC] [("a", colA2)]

/-- A fresh class state (`columns = {}`, `defaults = {}`, class
attribute `update` unset). -/
def pstEmpty : PState :=
  { columns := [], defaults := [], updateAttr := none }

/-- A class state on which attribute `no` is already defined. -/
def pstDup : PState :=
  { columns := [("no", colNo)], defaults := [("no", Val.vnone)], updateAttr := none }

/-! ## Dictionary lemmas -/

theorem dictGet_cons {κ α : Type} [DecidableEq κ] (p : κ × α) (d : List (κ × α)) (a : κ) :
    dictGet (p :: d) a = if p.1 = a then some p.2 else dictGet d a := by
  by_cases h : p.1 = a <;> simp [dictGet, List.find?_cons, h]

theorem dictGet_dictSet {κ α : Type} [DecidableEq κ] (d : List (κ × α)) (k a : κ) (v : α) :
    dictGet (dictSet d k v) a = if a = k then some v else dictGet d a := by
  induction d with
  | nil =>
      by_cases h : a = k
      · simp [dictSet, dictGet, List.find?_cons, h]
      · have h2 : k ≠ a := Ne.symm h
        simp [dictSet, dictGet, List.find?_cons, h, h2]
  | cons p d ih =>
      by_cases hpk : p.1 = k
      · by_cases h : a = k
        · subst h
          simp [dictSet, hpk, dictGet_cons]
        · have h2 : k ≠ a := Ne.symm h
          have h3 : p.1 ≠ a := by rw [hpk]; exact h2
          simp [dictSet, hpk, dictGet_cons, h, h2, h3]
      · by_cases h : a = k
        · subst h
          have h3 : p.1 ≠ a := hpk
          simp [dictSet, hpk, dictGet_cons, h3, ih]
        · by_cases h4 : p.1 = a
          · simp [dictSet, hpk, dictGet_cons, h4, h]
          · simp [dictSet, hpk, dictGet_cons, h4, ih, h]

theorem dictHasKey_eq_isSome {κ α : Type} [DecidableEq κ] (d : List (κ × α)) (a : κ) :
    dictHasKey d a = (dictGet d a).isSome := by
  induction d with
  | nil => rfl
  | cons p d ih =>
      by_cases h : p.1 = a
      · simp [dictHasKey, dictGet_cons, h]
      · simp only [dictHasKey, List.any_cons, dictGet_cons, if_neg h, h]
        simpa [dictHasKey] using ih

theorem dictHasKey_iff_mem_keys {κ α : Type} [DecidableEq κ] (d : List (κ × α)) (a : κ) :
    dictHasKey d a = true ↔ a ∈ dictKeys d := by
  simp [dictHasKey, dictKeys, List.any_eq_true, List.mem_map]

theorem dictGet_eq_none_iff {κ α : Type} [DecidableEq κ] (d : List (κ × α)) (a : κ) :
    dictGet d a = none ↔ a ∉ dictKeys d := by
  rw [← Option.not_isSome_iff_eq_none, ← dictHasKey_eq_isSome]
  constructor
  · intro h hmem
    exact h ((dictHasKey_iff_mem_keys d a).mpr hmem)
  · intro h h2
    exact h ((dictHasKey_iff_mem_keys d a).mp h2)

theorem dictKeys_dictSet {κ α : Type} [DecidableEq κ] (d : List (κ × α)) (k : κ) (v : α) :
    dictKeys (dictSet d k v) =
      if dictHasKey d k then dictKeys d else dictKeys d ++ [k] := by
  induction d with
  | nil => simp [dictSet, dictKeys, dictHasKey]
  | cons p d ih =>
      by_cases hpk : p.1 = k
      · simp [dictSet, hpk, dictKeys, dictHasKey]
      · have : dictHasKey (p :: d) k = dictHasKey d k := by
          simp [dictHasKey, hpk]
        rw [this]
        by_cases h : dictHasKey d k = true
        · simp [dictSet, hpk, dictKeys, h] at ih ⊢
          simpa [dictKeys] using ih
        · simp only [Bool.not_eq_true] at h
          simp [dictSet, hpk, dictKeys, h] at ih ⊢
          simpa [dictKeys] using ih

theorem nodup_dictSet {κ α : Type} [DecidableEq κ] {d : List (κ × α)} {k : κ} {v : α}
    (h : (dictKeys d).Nodup) : (dictKeys (dictSet d k v)).Nodup := by
  rw [dictKeys_dictSet]
  by_cases hk : dictHasKey d k = true
  · simpa [hk] using h
  · have : k ∉ dictKeys d := fun hmem => hk ((dictHasKey_iff_mem_keys d k).mpr hmem)
    simp only [Bool.not_eq_true] at hk
    simp [hk, List.nodup_append, h, this]

theorem dictUpdate_nil {κ α : Type} [DecidableEq κ] (d : List (κ × α)) :
    dictUpdate d [] = d := rfl

theorem dictUpdate_cons {κ α : Type} [DecidableEq κ] (d : List (κ × α)) (p : κ × α)
    (e : List (κ × α)) : dictUpdate d (p :: e) = dictUpdate (dictSet d p.1 p.2) e := rfl

theorem dictGet_dictUpdate_of_none {κ α : Type} [DecidableEq κ] {e : List (κ × α)} {a : κ}
    (d : List (κ × α)) (h : dictGet e a = none) :
    dictGet (dictUpdate d e) a = dictGet d a := by
  induction e generalizing d with
  | nil => rfl
  | cons p e ih =>
      rw [dictGet_cons] at h
      by_cases hpa : p.1 = a
      · simp [hpa] at h
      · rw [if_neg hpa] at h
        have h2 : ¬a = p.1 := fun h3 => hpa h3.symm
        rw [dictUpdate_cons, ih _ h, dictGet_dictSet, if_neg h2]

theorem dictGet_dictUpdate_of_some {κ α : Type} [DecidableEq κ] {e : List (κ × α)} {a : κ}
    {v : α} (d : List (κ × α)) (hnd : (dictKeys e).Nodup) (h : dictGet e a = some v) :
    dictGet (dictUpdate d e) a = some v := by
  induction e generalizing d with
  | nil => simp [dictGet] at h
  | cons p e ih =>
      rw [dictGet_cons] at h
      rw [dictUpdate_cons]
      simp only [dictKeys, List.map_cons, List.nodup_cons] at hnd
      by_cases hpa : p.1 = a
      · rw [if_pos hpa] at h
        have hv : p.2 = v := Option.some.inj h
        have hmem : a ∉ dictKeys e := by
          show a ∉ List.map Prod.fst e
          rw [← hpa]
          exact hnd.1
        have hnone : dictGet e a = none := (dictGet_eq_none_iff e a).mpr hmem
        rw [dictGet_dictUpdate_of_none _ hnone, dictGet_dictSet, if_pos hpa.symm, hv]
      · rw [if_neg hpa] at h
        exact ih _ hnd.2 h

theorem dictHasKey_dictSet {κ α : Type} [DecidableEq κ] (d : List (κ × α)) (k a : κ)
    (v : α) :
    dictHasKey (dictSet d k v) a = (dictHasKey d a || decide (a = k)) := by
  rw [dictHasKey_eq_isSome, dictHasKey_eq_isSome, dictGet_dictSet]
  by_cases h : a = k <;> simp [h]

theorem dictHasKey_dictUpdate {κ α : Type} [DecidableEq κ] (d e : List (κ × α)) (a : κ) :
    dictHasKey (dictUpdate d e) a = (dictHasKey d a || dictHasKey e a) := by
  induction e generalizing d with
  | nil => simp [dictUpdate, dictHasKey]
  | cons p e ih =>
      rw [dictUpdate_cons, ih, dictHasKey_dictSet]
      have hc : dictHasKey (p :: e) a = (decide (p.1 = a) || dictHasKey e a) := by
        simp [dictHasKey]
      rw [hc]
      by_cases h : p.1 = a
      · simp [h]
      · have h2 : ¬a = p.1 := fun h3 => h h3.symm
        simp [h, h2]

theorem nodup_dictUpdate {κ α : Type} [DecidableEq κ] {d : List (κ × α)}
    (e : List (κ × α)) (hd : (dictKeys d).Nodup) :
    (dictKeys (dictUpdate d e)).Nodup := by
  induction e generalizing d with
  | nil => exact hd
  | cons p e ih => rw [dictUpdate_cons]; exact ih (nodup_dictSet hd)

theorem mem_dictSet {κ α : Type} [DecidableEq κ] {d : List (κ × α)} {k : κ} {v : α}
    {p : κ × α} (h : p ∈ dictSet d k v) : p ∈ d ∨ p = (k, v) := by
  induction d with
  | nil => simpa [dictSet] using h
  | cons q d ih =>
      by_cases hqk : q.1 = k
      · have hset : dictSet (q :: d) k v = (k, v) :: d := by
          simp [dictSet, hqk]
        rw [hset, List.mem_cons] at h
        rcases h with h | h
        · exact Or.inr h
        · exact Or.inl (List.mem_cons_of_mem _ h)
      · have hset : dictSet (q :: d) k v = q :: dictSet d k v := by
          simp [dictSet, hqk]
        rw [hset, List.mem_cons] at h
        rcases h with h | h
        · exact Or.inl (h ▸ List.mem_cons_self _ _)
        · rcases ih h with h2 | h2
          · exact Or.inl (List.mem_cons_of_mem _ h2)
          · exact Or.inr h2

theorem dictGet_mem {κ α : Type} [DecidableEq κ] {d : List (κ × α)} {a : κ} {v : α}
    (h : dictGet d a = some v) : (a, v) ∈ d := by
  induction d with
  | nil => simp [dictGet] at h
  | cons p d ih =>
      rw [dictGet_cons] at h
      by_cases hpa : p.1 = a
      · rw [if_pos hpa] at h
        have hv : p.2 = v := Option.some.inj h
        have hp : p = (a, v) := by rw [← hpa, ← hv]
        rw [hp]
        exact List.mem_cons_self _ _
      · rw [if_neg hpa] at h
        exact List.mem_cons_of_mem _ (ih h)

theorem dictGet_dictUpdate_cases {κ α : Type} [DecidableEq κ] {e : List (κ × α)} {a : κ}
    {v : α} (d : List (κ × α)) (h : dictGet (dictUpdate d e) a = some v) :
    dictGet d a = some v ∨ (a, v) ∈ e := by
  induction e generalizing d with
  | nil => exact Or.inl h
  | cons p e ih =>
      rw [dictUpdate_cons] at h
      rcases ih _ h with h2 | h2
      · rw [dictGet_dictSet] at h2
        by_cases hpa : a = p.1
        · rw [if_pos hpa] at h2
          have hv : p.2 = v := Option.some.inj h2
          have hp : p = (a, v) := by rw [hpa, ← hv]
          right
          rw [← hp]
          exact List.mem_cons_self _ _
        · rw [if_neg hpa] at h2
          exact Or.inl h2
      · exact Or.inr (List.mem_cons_of_mem _ h2)

theorem dictGet_of_mem_nodup {κ α : Type} [DecidableEq κ] {d : List (κ × α)} {a : κ}
    {v : α} (h : (a, v) ∈ d) (hnd : (dictKeys d).Nodup) : dictGet d a = some v := by
  induction d with
  | nil => simp at h
  | cons p d ih =>
      simp only [dictKeys, List.map_cons, List.nodup_cons] at hnd
      rw [dictGet_cons]
      rcases List.mem_cons.mp h with h2 | h2
      · rw [← h2]
        simp
      · have hmem : a ∈ List.map Prod.fst d := List.mem_map_of_mem Prod.fst h2
        have hpa : p.1 ≠ a := fun h3 => hnd.1 (h3 ▸ hmem)
        rw [if_neg hpa]
        exact ih h2 hnd.2

/-! ## Claim C8: classification predicates are mutually exclusive -/

/-- C8: for every descriptor, whatever its fields hold, the predicates
`is_one_to_one`, `is_one_to_many` and `is_many_to_many` are pairwise
mutually exclusive, and a descriptor with `vcls` unset satisfies none of
them — so at most one of the four classifications
{none, 1-1, 1-n, m-n} applies. -/
theorem C8_classification_exclusive (c : Column) :
    (¬(c.is_one_to_one = true ∧ c.is_one_to_many = true))
    ∧ (¬(c.is_one_to_one = true ∧ c.is_many_to_many = true))
    ∧ (¬(c.is_one_to_many = true ∧ c.is_many_to_many = true))
    ∧ (c.vcls = none →
        c.is_one_to_one = false ∧ c.is_one_to_many = false
          ∧ c.is_many_to_many = false) := by
  obtain ⟨attr, col, vcls, link, vcol, vattr, asc, upd, cache⟩ := c
  cases vcls <;> cases link <;> cases vcol <;> cases vattr <;>
    simp [Column.is_one_to_one, Column.is_one_to_many, Column.is_many_to_many]

/-- Witness for C8 at the concrete plain descriptor `colNo`
(`vcls = none`). -/
theorem C8_classification_exclusive_witness :
    colNo.is_one_to_one = false ∧ colNo.is_one_to_many = false
      ∧ colNo.is_many_to_many = false :=
  (C8_classification_exclusive colNo).2.2.2 rfl

/-! ## Claim C2: `getColumns` across the hierarchy -/

theorem PClass.inductionOn {motive : PClass → Prop}
    (h : ∀ bases cols, (∀ b ∈ bases, motive b) → motive (PClass.mk bases cols)) :
    ∀ c, motive c
  | PClass.mk bases cols =>
      h bases cols (fun b hb => PClass.inductionOn h b)
termination_by c => sizeOf c
decreasing_by
  have h2 := List.sizeOf_lt_of_mem hb
  simp only [PClass.mk.sizeOf_spec]
  omega

theorem nodup_getColumnsOfBases (bs : List PClass) (acc : List (String × Column))
    (h : (dictKeys acc).Nodup) : (dictKeys (getColumnsOfBases acc bs)).Nodup := by
  induction bs generalizing acc with
  | nil => exact h
  | cons b bs ih =>
      rw [getColumnsOfBases]
      exact ih _ (nodup_dictUpdate _ h)

theorem nodup_getColumns (c : PClass) : (dictKeys c.getColumns).Nodup := by
  cases c with
  | mk bases cols =>
      rw [PClass.getColumns]
      exact nodup_dictUpdate _ (nodup_getColumnsOfBases bases [] (by simp [dictKeys]))

theorem hasKey_getColumnsOfBases (a : String) (bs : List PClass) :
    ∀ acc : List (String × Column),
      (∀ b ∈ bs, dictHasKey b.getColumns a = b.declares a) →
      dictHasKey (getColumnsOfBases acc bs) a
        = (dictHasKey acc a || basesDeclare bs a) := by
  induction bs with
  | nil =>
      intro acc _
      simp [getColumnsOfBases, basesDeclare]
  | cons b bs ih =>
      intro acc hIH
      rw [getColumnsOfBases, ih _ (fun x hx => hIH x (List.mem_cons_of_mem _ hx)),
        dictHasKey_dictUpdate, hIH b (List.mem_cons_self _ _), basesDeclare,
        Bool.or_assoc]

theorem hasKey_getColumns (a : String) :
    ∀ c : PClass, dictHasKey c.getColumns a = c.declares a := by
  apply PClass.inductionOn
  intro bases cols hIH
  rw [PClass.getColumns, PClass.declares, dictHasKey_dictUpdate,
    hasKey_getColumnsOfBases a bases [] hIH]
  have h0 : dictHasKey ([] : List (String × Column)) a = false := rfl
  rw [h0, Bool.false_or, Bool.or_comm]

theorem getColumnsOfBases_cases (a : String) (v : Column) (bs : List PClass) :
    ∀ acc : List (String × Column),
      dictGet (getColumnsOfBases acc bs) a = some v →
      dictGet acc a = some v ∨ ∃ b ∈ bs, dictGet b.getColumns a = some v := by
  induction bs with
  | nil =>
      intro acc h
      exact Or.inl h
  | cons b bs ih =>
      intro acc h
      rw [getColumnsOfBases] at h
      rcases ih _ h with h2 | h2
      · rcases dictGet_dictUpdate_cases _ h2 with h3 | h3
        · exact Or.inl h3
        · exact Or.inr ⟨b, List.mem_cons_self _ _,
            dictGet_of_mem_nodup h3 (nodup_getColumns b)⟩
      · rcases h2 with ⟨b2, hb2, h3⟩
        exact Or.inr ⟨b2, List.mem_cons_of_mem _ hb2, h3⟩

theorem basesHaveDecl_of_mem {a : String} {v : Column} {bs : List PClass} {b : PClass}
    (hb : b ∈ bs) (h : b.hasDecl a v = true) : basesHaveDecl bs a v = true := by
  induction bs with
  | nil => simp at hb
  | cons b2 bs ih =>
      rw [basesHaveDecl, Bool.or_eq_true]
      rcases List.mem_cons.mp hb with h2 | h2
      · exact Or.inl (h2 ▸ h)
      · exact Or.inr (ih h2)

theorem getColumns_hasDecl (a : String) (v : Column) :
    ∀ c : PClass, dictGet c.getColumns a = some v → c.hasDecl a v = true := by
  apply PClass.inductionOn
  intro bases cols hIH h
  rw [PClass.getColumns] at h
  rw [PClass.hasDecl, Bool.or_eq_true]
  rcases dictGet_dictUpdate_cases _ h with h2 | h2
  · rcases getColumnsOfBases_cases a v bases [] h2 with h3 | h3
    · simp [dictGet] at h3
    · rcases h3 with ⟨b, hb, h4⟩
      exact Or.inr (basesHaveDecl_of_mem hb (hIH b hb h4))
  · exact Or.inl (by
      rw [List.any_eq_true]
      exact ⟨(a, v), h2, by simp⟩)

/-- C2: `getColumns()` returns exactly the union of the descriptors
declared across the class and its transitive bases, keyed by attribute
name: the returned dictionary has no duplicate attribute (also through
diamond inheritance), an attribute is present iff some class of the
hierarchy declares it, the own declaration of the class wins any collision,
and every returned binding was declared by some class of the
hierarchy. -/
theorem C2_getColumns_union (bases : List PClass) (cols : List (String × Column))
    (hnd : (dictKeys cols).Nodup) :
    (dictKeys (PClass.mk bases cols).getColumns).Nodup
    ∧ (∀ a, dictHasKey (PClass.mk bases cols).getColumns a
          = (PClass.mk bases cols).declares a)
    ∧ (∀ a v, dictGet cols a = some v →
          dictGet (PClass.mk bases cols).getColumns a = some v)
    ∧ (∀ a v, dictGet (PClass.mk bases cols).getColumns a = some v →
          (PClass.mk bases cols).hasDecl a v = true) := by
  refine ⟨nodup_getColumns _, fun a => hasKey_getColumns a _, fun a v h => ?_,
    fun a v h => getColumns_hasDecl a v _ h⟩
  rw [PClass.getColumns]
  exact dictGet_dictUpdate_of_some _ hnd h

/-- Witness for C2 on the diamond `pD → {pB, pC} → pA`, where `pD`
overrides the inherited attribute `"a"`. -/
theorem C2_getColumns_union_witness :
    (dictKeys (PClass.mk [pB, pC] [("a", colA2)]).getColumns).Nodup
    ∧ dictHasKey (PClass.mk [pB, pC] [("a", colA2)]).getColumns "a"
        = (PClass.mk [pB, pC] [("a", colA2)]).declares "a"
    ∧ dictGet (PClass.mk [pB, pC] [("a", colA2)]).getColumns "a" = some colA2
    ∧ (PClass.mk [pB, pC] [("a", colA2)]).hasDecl "a" colA2 = true := by
  have h := C2_getColumns_union [pB, pC] [("a", colA2)] (by simp [dictKeys])
  have hget : dictGet [("a", colA2)] "a" = some colA2 := by decide
  exact ⟨h.1, h.2.1 "a", h.2.2.1 "a" colA2 hget,
    h.2.2.2 "a" colA2 (h.2.2.1 "a" colA2 hget)⟩

/-! ## Claim C1: the positional column list and the statement texts -/

/-- C1: when the configuration is resolved (a column carries an
association object exactly when it declares an association, i.e. when
`vcls` is set), the positional column list computed by
`Convertor.__init__` is the plain (non-association) columns in
declaration order followed by the one-to-one columns in declaration
order — one-to-many and many-to-many columns excluded — and the very
same list, in content and order, is the one the load, insert and update
statements are built from. -/
theorem C1_column_order (cls : ConvClass)
    (hres : ∀ c ∈ cls.columns, c.association.isNone = c.vcls.isNone) :
    (convStateOf cls).columns
      = ((cls.columns.filter (fun c => c.vcls.isNone)).map Column.col
          ++ (cls.columns.filter Column.is_one_to_one).map Column.col)
    ∧ (convStateOf cls).qGetObjects
      = selectText cls.relation
          ((cls.columns.filter (fun c => c.vcls.isNone)).map Column.col
            ++ (cls.columns.filter Column.is_one_to_one).map Column.col)
    ∧ (convStateOf cls).qAdd
      = insertText cls.relation
          ((cls.columns.filter (fun c => c.vcls.isNone)).map Column.col
            ++ (cls.columns.filter Column.is_one_to_one).map Column.col)
    ∧ (convStateOf cls).qUpdate
      = updateText cls.relation
          ((cls.columns.filter (fun c => c.vcls.isNone)).map Column.col
            ++ (cls.columns.filter Column.is_one_to_one).map Column.col) := by
  have hfilter : cls.columns.filter (fun c => c.association.isNone)
      = cls.columns.filter (fun c => c.vcls.isNone) :=
    List.filter_congr (fun c hc => by rw [hres c hc])
  refine ⟨?_, ?_, ?_, ?_⟩ <;> simp [convStateOf, hfilter]

/-- Witness for C1 on the `order` class of the module documentation, carrying plain
columns `no` and `finished`, a one-to-one `boss` column, a one-to-many
`items` column and a many-to-many `orders` column. -/
theorem C1_column_order_witness :
    (convStateOf clsOrderFull).columns
      = ((clsOrderFull.columns.filter (fun c => c.vcls.isNone)).map Column.col
          ++ (clsOrderFull.columns.filter Column.is_one_to_one).map Column.col)
    ∧ (convStateOf clsOrderFull).qGetObjects
      = selectText clsOrderFull.relation
          ((clsOrderFull.columns.filter (fun c => c.vcls.isNone)).map Column.col
            ++ (clsOrderFull.columns.filter Column.is_one_to_one).map Column.col)
    ∧ (convStateOf clsOrderFull).qAdd
      = insertText clsOrderFull.relation
          ((clsOrderFull.columns.filter (fun c => c.vcls.isNone)).map Column.col
            ++ (clsOrderFull.columns.filter Column.is_one_to_one).map Column.col)
    ∧ (convStateOf clsOrderFull).qUpdate
      = updateText clsOrderFull.relation
          ((clsOrderFull.columns.filter (fun c => c.vcls.isNone)).map Column.col
            ++ (clsOrderFull.columns.filter Column.is_one_to_one).map Column.col) :=
  C1_column_order clsOrderFull (by decide)

/-! ## Claim C5: the many-to-many symmetry check -/

theorem all_filter_or (l : List Column) (p f : Column → Bool) :
    (l.filter p).all f = l.all (fun c => !p c || f c) := by
  induction l with
  | nil => rfl
  | cons c l ih =>
      by_cases h : p c = true
      · simp [List.filter_cons, h, ih]
      · simp only [Bool.not_eq_true] at h
        simp [List.filter_cons, h, ih]

theorem mtmCheck_none_iff (l : List Column) :
    (mtmCheck l).isNone = l.all assocOkB := by
  induction l with
  | nil => rfl
  | cons c l ih =>
      cases hasc : c.association with
      | none => simp [mtmCheck, hasc, assocOkB]
      | some a =>
          by_cases h : a.colVcls = c.vcls
          · simp [mtmCheck, hasc, assocOkB, h, ih]
          · simp [mtmCheck, hasc, assocOkB, h]

/-- C5 amended: the only topology check `Convertor.__init__` performs is
the assertion that the association object of each many-to-many column
references the same partner class (`vcls` agreement); construction
succeeds exactly when every many-to-many column passes that assertion,
independently of whether the link relation or column pairing of the two sides
agree, and no dedicated association error is raised. -/
theorem C5_mtm_check_only_vcls (cls : ConvClass) :
    exOk (Convertor.init cls)
      = cls.columns.all (fun c => !c.is_many_to_many || assocOkB c) := by
  have h : exOk (Convertor.init cls)
      = (mtmCheck (cls.columns.filter Column.is_many_to_many)).isNone := by
    cases h2 : mtmCheck (cls.columns.filter Column.is_many_to_many) <;>
      simp [Convertor.init, h2, exOk]
  rw [h, mtmCheck_none_iff, all_filter_or]

/-- Counterexample for C5 as stated: mirrored many-to-many descriptors
(`colOrders` on `clsEmployee`, `colEmployeesBadLink` on
`clsOrderBadLink`) that disagree on the link relation name, yet query
compilation succeeds for both classes instead of failing. -/
theorem C5_counterexample :
    exOk (Convertor.init clsEmployee) = true
    ∧ exOk (Convertor.init clsOrderBadLink) = true
    ∧ colOrders.vattr = some colEmployeesBadLink.attr
    ∧ colEmployeesBadLink.vattr = some colOrders.attr
    ∧ colOrders.is_many_to_many = true
    ∧ colEmployeesBadLink.is_many_to_many = true
    ∧ colOrders.link ≠ colEmployeesBadLink.link := by
  refine ⟨rfl, rfl, rfl, rfl, rfl, rfl, by decide⟩

/-! ## Claim C4: row extraction (`Convertor.getData`) -/

theorem extractLoop_spec (obj : PObj) (cs : List Column)
    (hnd : (cs.map Column.col).Nodup)
    (hvals : ∀ c ∈ cs, ∃ v k, dictGet obj.attrs c.attr = some v
        ∧ keyOfRef v = Except.ok k) :
    ∀ d : List (String × Val),
      ∃ res, extractLoop obj cs d = Except.ok res
        ∧ (∀ a, a ∉ cs.map Column.col → dictGet res a = dictGet d a)
        ∧ (∀ c ∈ cs, ∀ v k, dictGet obj.attrs c.attr = some v →
            keyOfRef v = Except.ok k → dictGet res c.col = some k) := by
  induction cs with
  | nil =>
      intro d
      exact ⟨d, rfl, fun a _ => rfl, fun c hc => absurd hc (List.not_mem_nil c)⟩
  | cons c cs ih =>
      intro d
      obtain ⟨v, k, hv, hk⟩ := hvals c (List.mem_cons_self _ _)
      simp only [List.map_cons, List.nodup_cons] at hnd
      obtain ⟨res, hres, hu, hcols⟩ :=
        ih hnd.2 (fun x hx => hvals x (List.mem_cons_of_mem _ hx)) (dictSet d c.col k)
      have hstep : extractLoop obj (c :: cs) d = extractLoop obj cs (dictSet d c.col k) := by
        simp only [extractLoop, hv, hk]
      refine ⟨res, by rw [hstep, hres], ?_, ?_⟩
      · intro a ha
        simp only [List.map_cons, List.mem_cons, not_or] at ha
        rw [hu a ha.2, dictGet_dictSet, if_neg ha.1]
      · intro c2 hc2 v2 k2 hv2 hk2
        rcases List.mem_cons.mp hc2 with h2 | h2
        · subst h2
          rw [hv] at hv2
          have hvv : v = v2 := Option.some.inj hv2
          subst hvv
          rw [hk] at hk2
          have hkk : k = k2 := Except.ok.inj hk2
          subst hkk
          rw [hu c2.col hnd.1, dictGet_dictSet, if_pos rfl]
        · exact hcols c2 h2 v2 k2 hv2 hk2

/-- C4 amended: `extractRow(obj)` (the source function
`Convertor.getData`) returns the copy of the instance attribute
dictionary — so each plain column value appears under its *attribute* name, which coincides with
the column name only when `col` defaults to `attr` — overwritten, for
every one-to-one column, at the *column* name with the referenced
primary key of the referenced object (`None` when the reference is unset), never the
referenced object itself. -/
theorem C4_extractRow (cls : ConvClass) (obj : PObj)
    (hnd : ((cls.columns.filter Column.is_one_to_one).map Column.col).Nodup)
    (hvals : ∀ c ∈ cls.columns.filter Column.is_one_to_one,
        ∃ v k, dictGet obj.attrs c.attr = some v ∧ keyOfRef v = Except.ok k) :
    ∃ d, Convertor.getData (convStateOf cls) obj = Except.ok d
      ∧ (∀ c ∈ cls.columns, c.vcls = none →
          c.attr ∉ (cls.columns.filter Column.is_one_to_one).map Column.col →
          dictGet d c.attr = dictGet obj.attrs c.attr)
      ∧ (∀ c ∈ cls.columns, c.is_one_to_one = true →
          (dictGet obj.attrs c.attr = some Val.vnone →
            dictGet d c.col = some Val.vnone)
          ∧ (∀ k, dictGet obj.attrs c.attr = some (Val.vobj k) →
            dictGet d c.col = some k)) := by
  have hoto : (convStateOf cls).oto_ascs = cls.columns.filter Column.is_one_to_one := by
    simp [convStateOf]
  obtain ⟨res, hres, hu, hcres⟩ :=
    extractLoop_spec obj (cls.columns.filter Column.is_one_to_one) hnd hvals obj.attrs
  refine ⟨res, ?_, ?_, ?_⟩
  · rw [Convertor.getData, hoto]
    exact hres
  · intro c _ _ hnotin
    exact hu c.attr hnotin
  · intro c hcmem h11
    have hcf : c ∈ cls.columns.filter Column.is_one_to_one :=
      List.mem_filter.mpr ⟨hcmem, h11⟩
    constructor
    · intro hv
      exact hcres c hcf Val.vnone Val.vnone hv rfl
    · intro k hv
      exact hcres c hcf (Val.vobj k) k hv rfl

/-- Witness for C4 on the `order` class: the plain column `no` keeps its
value under its name, and the one-to-one column `boss` yields
`boss_fkey → 3`, the key of the referenced object. -/
theorem C4_extractRow_witness :
    Convertor.getData (convStateOf clsOrderFull) objOrder
      = Except.ok [("no", Val.vint 5), ("finished", Val.vint 0),
          ("boss", Val.vobj (Val.vint 3)), ("boss_fkey", Val.vint 3)]
    ∧ dictGet [("no", Val.vint 5), ("finished", Val.vint 0),
          ("boss", Val.vobj (Val.vint 3)), ("boss_fkey", Val.vint 3)] "no"
        = some (Val.vint 5)
    ∧ dictGet [("no", Val.vint 5), ("finished", Val.vint 0),
          ("boss", Val.vobj (Val.vint 3)), ("boss_fkey", Val.vint 3)] "boss_fkey"
        = some (Val.vint 3) := by
  have hf : clsOrderFull.columns.filter Column.is_one_to_one = [colBoss] := by decide
  obtain ⟨d, hd, hu, hc⟩ := C4_extractRow clsOrderFull objOrder
    (by rw [hf]; decide)
    (by
      rw [hf]
      intro c hc
      rw [List.mem_singleton] at hc
      subst hc
      exact ⟨Val.vobj (Val.vint 3), Val.vint 3, rfl, rfl⟩)
  have hconc : Convertor.getData (convStateOf clsOrderFull) objOrder
      = Except.ok [("no", Val.vint 5), ("finished", Val.vint 0),
          ("boss", Val.vobj (Val.vint 3)), ("boss_fkey", Val.vint 3)] := rfl
  have hdd := Except.ok.inj (hd ▸ hconc)
  subst hdd
  refine ⟨hd, ?_, ?_⟩
  · have hno := hu colNo (by decide) rfl (by rw [hf]; decide)
    exact hno.trans rfl
  · have hboss := (hc colBoss (by decide) rfl).2 (Val.vint 3) rfl
    exact hboss

/-- Counterexample for C4 as stated: a plain column whose relation
column name `b` differs from the attribute name `a`; the extracted
mapping carries the value under `a` and has no entry at the column name
`b`, so it is not keyed by column name for plain columns. -/
theorem C4_counterexample :
    colAB.vcls = none
    ∧ colAB.col = "b"
    ∧ clsAB.columns = [colAB]
    ∧ dictGet objAB.attrs "a" = some (Val.vint 5)
    ∧ Convertor.getData (convStateOf clsAB) objAB = Except.ok [("a", Val.vint 5)]
    ∧ dictGet [("a", Val.vint 5)] "b" = none := by
  refine ⟨rfl, rfl, rfl, rfl, rfl, rfl⟩

/-! ## Claim C3: `Convertor.add` ordering and atomicity -/

/-- C3: `add(obj)` allocates the key via the sequencer query, inserts
the extracted row carrying it, and only then assigns the key onto
`obj`.  If key allocation fails, no insert is issued and `obj` is left
untouched (its key stays unset); if anything fails after the key was
allocated — in particular the insert — `obj` is still left untouched,
so it is never left with the allocated key assigned. -/
theorem C3_add_atomic (st : ConvState) (m : Motor) (obj : PObj) :
    (exOk (Motor.getKey m st.qGetKey) = false →
      (Convertor.add st m obj).2.1 = obj
      ∧ ∀ q d2, Event.evInsert q d2 ∉ (Convertor.add st m obj).2.2)
    ∧ (exOk (Convertor.add st m obj).1 = false → (Convertor.add st m obj).2.1 = obj)
    ∧ (∀ k data, Convertor.getData st obj = Except.ok data →
        Motor.getKey m st.qGetKey = Except.ok k →
        exOk (Convertor.add st m obj).1 = true →
        (Convertor.add st m obj).2.1 = { obj with key := k }
        ∧ (Convertor.add st m obj).2.2
          = [Event.evGetKey st.qGetKey,
              Event.evInsert st.qAdd (dictSet data "__key__" k)]) := by
  cases hgd : Convertor.getData st obj with
  | error e =>
      refine ⟨fun _ => ⟨?_, ?_⟩, fun _ => ?_, fun k data h1 => ?_⟩
      · simp [Convertor.add, hgd]
      · intro q d2
        simp [Convertor.add, hgd]
      · simp [Convertor.add, hgd]
      · exact absurd h1 (by simp)
  | ok data =>
      cases hgk : Motor.getKey m st.qGetKey with
      | error e =>
          refine ⟨fun _ => ⟨?_, ?_⟩, fun _ => ?_, fun k data2 h1 h2 => ?_⟩
          · simp [Convertor.add, hgd, hgk]
          · intro q d2
            simp [Convertor.add, hgd, hgk]
          · simp [Convertor.add, hgd, hgk]
          · exact absurd h2 (by simp)
      | ok key =>
          cases hma : Motor.add m st.qAdd (dictSet data "__key__" key) with
          | error e2 =>
              refine ⟨fun hko => ?_, fun _ => ?_, fun k data2 h1 h2 h3 => ?_⟩
              · simp [exOk] at hko
              · simp [Convertor.add, hgd, hgk, hma]
              · have hd2 : data = data2 := Except.ok.inj h1
                have hk2 : key = k := Except.ok.inj h2
                subst hd2
                subst hk2
                simp [Convertor.add, hgd, hgk, hma, exOk] at h3
          | ok u =>
              refine ⟨fun hko => ?_, fun hfail => ?_, fun k data2 h1 h2 _ => ?_⟩
              · simp [exOk] at hko
              · simp [Convertor.add, hgd, hgk, hma, exOk] at hfail
              · have hd2 : data = data2 := Except.ok.inj h1
                have hk2 : key = k := Except.ok.inj h2
                subst hd2
                subst hk2
                constructor
                · simp [Convertor.add, hgd, hgk, hma]
                · simp [Convertor.add, hgd, hgk, hma]

/-- Witness for C3: on the one-column `order` class, a driver whose key
allocation fails leaves the object untouched with no insert issued, and
a driver that allocates key 7 but fails the insert also leaves the
object untouched. -/
theorem C3_add_atomic_witness :
    ((Convertor.add (convStateOf clsOrderPlain) mAllFail objNoKey).2.1 = objNoKey
      ∧ Event.evInsert "x" [] ∉ (Convertor.add (convStateOf clsOrderPlain) mAllFail objNoKey).2.2)
    ∧ (Convertor.add (convStateOf clsOrderPlain) mInsFail objNoKey).2.1 = objNoKey := by
  have h1 := (C3_add_atomic (convStateOf clsOrderPlain) mAllFail objNoKey).1 rfl
  have h2 := (C3_add_atomic (convStateOf clsOrderPlain) mInsFail objNoKey).2.1 rfl
  exact ⟨⟨h1.1, h1.2 "x" []⟩, h2⟩

/-! ## Claim C7: `Convertor.update` and the primary key -/

/-- C7 amended: `update(obj)` performs no primary-key check: every
statement it issues is the positional update on the compiled update
text with the parameter list drawn from the extracted row and keyed by
exactly the current value of `obj.__key__` — the unset key `None` included,
in which case the statement is issued (matching no row) rather than
failing.  When extraction and column lookup succeed, exactly that one
statement is issued. -/
theorem C7_update_keyed_by_objkey (st : ConvState) (m : Motor) (obj : PObj) :
    (∀ ev ∈ (Convertor.update st m obj).2,
      ∃ ps, ev = Event.evUpdate st.qUpdate ps obj.key)
    ∧ (∀ data params, Convertor.getData st obj = Except.ok data →
        pickCols data st.columns = Except.ok params →
        (Convertor.update st m obj).2
          = [Event.evUpdate st.qUpdate params obj.key]) := by
  cases hgd : Convertor.getData st obj with
  | error e =>
      refine ⟨fun ev hev => ?_, fun data params h1 => ?_⟩
      · simp [Convertor.update, hgd] at hev
      · exact absurd h1 (by simp)
  | ok data =>
      cases hpc : pickCols data st.columns with
      | error e =>
          refine ⟨fun ev hev => ?_, fun data2 params h1 h2 => ?_⟩
          · simp [Convertor.update, hgd, hpc] at hev
          · have hd2 : data = data2 := Except.ok.inj h1
            subst hd2
            rw [hpc] at h2
            exact absurd h2 (by simp)
      | ok params =>
          have htr : (Convertor.update st m obj).2
              = [Event.evUpdate st.qUpdate params obj.key] := by
            cases hmu : Motor.update m st.qUpdate params obj.key with
            | error e => simp [Convertor.update, hgd, hpc, hmu]
            | ok u => simp [Convertor.update, hgd, hpc, hmu]
          refine ⟨fun ev hev => ?_, fun data2 params2 h1 h2 => ?_⟩
          · rw [htr, List.mem_singleton] at hev
            exact ⟨params, hev⟩
          · have hd2 : data = data2 := Except.ok.inj h1
            subst hd2
            rw [hpc] at h2
            have hp2 : params = params2 := Except.ok.inj h2
            subst hp2
            exact htr

/-- Witness for C7 on the one-column `order` class with an unset key:
the single issued statement is keyed by `None`. -/
theorem C7_update_keyed_by_objkey_witness :
    (Convertor.update (convStateOf clsOrderPlain) mQuiet objNoKey).2
      = [Event.evUpdate (convStateOf clsOrderPlain).qUpdate [Val.vint 1] Val.vnone] :=
  (C7_update_keyed_by_objkey (convStateOf clsOrderPlain) mQuiet objNoKey).2
    [("no", Val.vint 1)] [Val.vint 1] rfl rfl

/-- Counterexample for C7 as stated: an object whose primary key is
unset (`None`), a connected driver, and `update(obj)` succeeds — the
statement is issued keyed by `None` and no error is raised or
propagated. -/
theorem C7_counterexample :
    objNoKey.key = Val.vnone
    ∧ (Convertor.update (convStateOf clsOrderPlain) mQuiet objNoKey).1 = Except.ok ()
    ∧ (Convertor.update (convStateOf clsOrderPlain) mQuiet objNoKey).2
      = [Event.evUpdate (convStateOf clsOrderPlain).qUpdate [Val.vint 1] Val.vnone] := by
  refine ⟨rfl, rfl, rfl⟩

/-! ## Claim C6: the `update` argument of `addColumn` -/

/-- C6 (bug evidence): calling `addColumn` for attribute `items` with
`vcls=OrderItem`, `vcol=order_fkey`, `vattr=order` and `update=False`
succeeds and registers
a descriptor carrying the passed `attr`, `col`, `vcls`, `link`, `vcol`
and `vattr` — but its `update` field is `True`, not the passed `False`:
the statement `self.update = update` assigned the class attribute named
`update` (visible in `updateAttr`) instead of the descriptor field. -/
theorem C6_update_flag_dropped :
    (addColumn pstEmpty "items" none (some "OrderItem") none (some "order_fkey")
        (some "order") false).2 = none
    ∧ dictGet (addColumn pstEmpty "items" none (some "OrderItem") none
        (some "order_fkey") (some "order") false).1.columns "items"
      = some { attr := "items", col := "items", vcls := some "OrderItem",
               link := none, vcol := some "order_fkey", vattr := some "order",
               association := none, update := true,
               cache := some CacheTag.fullAssociation }
    ∧ (addColumn pstEmpty "items" none (some "OrderItem") none (some "order_fkey")
        (some "order") false).1.updateAttr = some false := by
  refine ⟨rfl, by decide, rfl⟩

/-! ## Claim C10: failed `addColumn` calls leave `defaults` mutated -/

theorem addColumnPre_columns (st : PState) (attr : String)
    (colArg vcls link vcol vattr : Option String) (upd : Bool) :
    (addColumnPre st attr colArg vcls link vcol vattr upd).columns = st.columns := by
  simp only [addColumnPre]
  split <;> rfl

theorem addColumnPre_updateAttr (st : PState) (attr : String)
    (colArg vcls link vcol vattr : Option String) (upd : Bool) :
    (addColumnPre st attr colArg vcls link vcol vattr upd).updateAttr = some upd := by
  simp only [addColumnPre]
  split <;> rfl

theorem addColumnPre_defaults_attr (st : PState) (attr : String)
    (colArg vcls link vcol vattr : Option String) (upd : Bool) :
    dictGet (addColumnPre st attr colArg vcls link vcol vattr upd).defaults attr
      = some Val.vnone := by
  simp only [addColumnPre]
  split
  case isTrue h =>
      have h2 : ¬attr = (addColumnDescr attr colArg vcls link vcol vattr).col := h.2
      rw [dictGet_dictSet, if_neg h2, dictGet_dictSet, if_pos rfl]
  case isFalse h =>
      rw [dictGet_dictSet, if_pos rfl]

theorem addColumnPre_defaults_col (st : PState) (attr : String)
    (colArg vcls link vcol vattr : Option String) (upd : Bool)
    (h11 : (addColumnDescr attr colArg vcls link vcol vattr).is_one_to_one = true)
    (hne : attr ≠ (addColumnDescr attr colArg vcls link vcol vattr).col) :
    dictGet (addColumnPre st attr colArg vcls link vcol vattr upd).defaults
        (addColumnDescr attr colArg vcls link vcol vattr).col = some Val.vnone := by
  simp only [addColumnPre]
  rw [if_pos ⟨h11, hne⟩, dictGet_dictSet, if_pos rfl]

/-- C10: whenever `addColumn` raises because the attribute name is empty
or already defined, the `columns` mapping of the class is exactly as before
(the descriptor is never registered), but the call has already mutated
the class: `defaults[attr]` is set to `None` — and for a one-to-one
descriptor with `attr != col`, `defaults[col]` too — and the class
attribute `update` has been assigned. -/
theorem C10_fail_mutates_defaults (st : PState) (attr : String)
    (colArg vcls link vcol vattr : Option String) (upd : Bool)
    (h : attr = "" ∨ dictHasKey st.columns attr = true) :
    ((addColumn st attr colArg vcls link vcol vattr upd).2).isSome = true
    ∧ (addColumn st attr colArg vcls link vcol vattr upd).1.columns = st.columns
    ∧ dictGet (addColumn st attr colArg vcls link vcol vattr upd).1.defaults attr
        = some Val.vnone
    ∧ ((addColumnDescr attr colArg vcls link vcol vattr).is_one_to_one = true →
        attr ≠ (addColumnDescr attr colArg vcls link vcol vattr).col →
        dictGet (addColumn st attr colArg vcls link vcol vattr upd).1.defaults
            (addColumnDescr attr colArg vcls link vcol vattr).col = some Val.vnone)
    ∧ (addColumn st attr colArg vcls link vcol vattr upd).1.updateAttr = some upd := by
  have hpre : (addColumn st attr colArg vcls link vcol vattr upd).1
        = addColumnPre st attr colArg vcls link vcol vattr upd
      ∧ ((addColumn st attr colArg vcls link vcol vattr upd).2).isSome = true := by
    by_cases h0 : attr = ""
    · have hres : addColumn st attr colArg vcls link vcol vattr upd
          = (addColumnPre st attr colArg vcls link vcol vattr upd,
              some PyErr.nameError) := by
        simp only [addColumn]
        rw [if_pos h0]
      rw [hres]
      exact ⟨rfl, rfl⟩
    · have hk : dictHasKey st.columns attr = true := by
        rcases h with h | h
        · exact absurd h h0
        · exact h
      have hk3 : dictHasKey
          (addColumnPre st attr colArg vcls link vcol vattr upd).columns attr = true := by
        rw [addColumnPre_columns]
        exact hk
      have hres : addColumn st attr colArg vcls link vcol vattr upd
          = (addColumnPre st attr colArg vcls link vcol vattr upd,
              some PyErr.columnMappingError) := by
        simp only [addColumn]
        rw [if_neg h0, if_pos hk3]
      rw [hres]
      exact ⟨rfl, rfl⟩
  rw [hpre.1]
  exact ⟨hpre.2, addColumnPre_columns st attr colArg vcls link vcol vattr upd,
    addColumnPre_defaults_attr st attr colArg vcls link vcol vattr upd,
    fun h11 hne => addColumnPre_defaults_col st attr colArg vcls link vcol vattr upd h11 hne,
    addColumnPre_updateAttr st attr colArg vcls link vcol vattr upd⟩

/-- Witness for C10: redeclaring the one-to-one attribute `no` with
column `no_fkey` on a class that already defines `no` fails, leaves
`columns` untouched, and has set `defaults["no"]` and
`defaults["no_fkey"]` to `None`. -/
theorem C10_fail_mutates_defaults_witness :
    ((addColumn pstDup "no" (some "no_fkey") (some "Other") none none none true).2).isSome
        = true
    ∧ (addColumn pstDup "no" (some "no_fkey") (some "Other") none none none
        true).1.columns = pstDup.columns
    ∧ dictGet (addColumn pstDup "no" (some "no_fkey") (some "Other") none none none
        true).1.defaults "no" = some Val.vnone
    ∧ dictGet (addColumn pstDup "no" (some "no_fkey") (some "Other") none none none
        true).1.defaults
        (addColumnDescr "no" (some "no_fkey") (some "Other") none none none).col
      = some Val.vnone
    ∧ (addColumn pstDup "no" (some "no_fkey") (some "Other") none none none
        true).1.updateAttr = some true := by
  have h := C10_fail_mutates_defaults pstDup "no" (some "no_fkey") (some "Other")
    none none none true (Or.inr rfl)
  exact ⟨h.1, h.2.1, h.2.2.1, h.2.2.2.1 rfl (by decide), h.2.2.2.2⟩

/-! ## Claim C9: query operations before `connectDB` -/

/-- C9: every query operation of a freshly initialized `Motor` — row
query, insert, update, delete, batch execution, key allocation — fails
before `connectDB` has been called: `db_conn` is `None`, so taking a
cursor raises the "no active connection" failure (what the spec names as
ConnectionError; at the Python level, `AttributeError` on `None`). -/
theorem C9_query_before_connect_fails (q : String) (data : List (String × Val))
    (params : List Val) (key : Val) (seq : List (List Val)) :
    Motor.getData Motor.initState q = Except.error PyErr.attributeError
    ∧ Motor.add Motor.initState q data = Except.error PyErr.attributeError
    ∧ Motor.update Motor.initState q params key = Except.error PyErr.attributeError
    ∧ Motor.delete Motor.initState q key = Except.error PyErr.attributeError
    ∧ Motor.executeMany Motor.initState q seq = Except.error PyErr.attributeError
    ∧ Motor.getKey Motor.initState q = Except.error PyErr.attributeError :=
  ⟨rfl, rfl, rfl, rfl, rfl, rfl⟩

end Bazaar
